import Mathlib

/-!
# The `net` I/O engine of fio (`engines/net.c`)

A shallow embedding of the engine's entry points and the properties of its
validation, execution, completion, setup and cleanup paths.

Conventions of the embedding.

* C `int`, `ssize_t` and `errno` values are `Int`; `unsigned int` values are
  `Nat` reduced modulo `2 ^ 32` wherever the C code converts or subtracts.
* A pointer to an `io_u` is a `Nat` address; `NULL` is `none`.
* `io_u->file` points into `td->files`; it is the index of the pointee.
* A function returns `none` where the C code has no defined outcome: a `NULL`
  or dangling dereference, a failed `assert`, or a `strcpy` past the end of
  its destination array.
* The operating system and the C library are an oracle (`os_env`) answering
  every call; the calls issued are appended to `os_state.calls`.
-/

namespace Fio

/-! ## Data model -/

/-- Modelled from the spec: `enum fio_ddir` of `fio.h` (not under `src/`); an
operation is read-shaped, write-shaped or sync-shaped. -/
inductive fio_ddir where
  | DDIR_READ
  | DDIR_WRITE
  | DDIR_SYNC
  deriving DecidableEq, Repr

open fio_ddir

/-- Generic I/O error of `errno.h`. -/
def EIO : Int := 5

/-- Invalid-argument error of `errno.h`. -/
def EINVAL : Int := 22

/-- Number of values of a C `unsigned int`. -/
def UINT_SZ : Nat := 4294967296

/-- Number of values of a C `unsigned long long`. -/
def ULL_SZ : Nat := 18446744073709551616

/-- Conversion of a signed value to `unsigned int` (reduction modulo `2 ^ 32`). -/
def to_uint (x : Int) : Nat := (x % (UINT_SZ : Int)).toNat

/-- Engine state, `struct net_data`. -/
structure net_data where
  send_to_net : Int
  last_io_u : Option Nat
  deriving DecidableEq, Repr

/-- Modelled from the spec: the fields of `struct fio_file` (`fio.h`, not under
`src/`) that the engine touches. -/
structure fio_file where
  fd : Int
  last_completed_pos : Nat
  real_file_size : Nat
  deriving DecidableEq, Repr

/-- Modelled from the spec: the fields of `struct io_u` (`fio.h`, not under
`src/`) that the engine touches: length, target offset, the outcome fields
`resid` and `error`, the direction and the file pointer. -/
structure io_u where
  buflen : Nat
  offset : Nat
  resid : Nat
  error : Int
  ddir : fio_ddir
  file : Nat
  deriving DecidableEq, Repr

/-- Modelled from the spec: the fields of `struct thread_data` (`fio.h`, not
under `src/`) that the engine touches. `data` is `td->io_ops->data`. -/
structure thread_data where
  data : Option net_data
  files : List fio_file
  nr_files : Nat
  filename : List Char
  ddir : fio_ddir
  iomix : Nat
  io_size : Nat
  total_file_size : Nat
  total_io_size : Nat
  error : Int
  verror : String
  deriving DecidableEq, Repr

/-! ## Operating system and C library -/

/-- System and resolver calls the engine can issue, with the arguments that
matter. `close` belongs to the interface although the engine never issues it. -/
inductive syscall where
  | write (fd : Int) (count : Nat)
  | read (fd : Int) (count : Nat)
  | socket
  | setsockopt (fd : Int)
  | bind (fd : Int) (port : Nat)
  | listen (fd : Int) (backlog : Nat)
  | accept (fd : Int)
  | connect (fd : Int) (addr : Nat) (port : Nat)
  | gethostbyname (host : List Char)
  | close (fd : Int)
  deriving DecidableEq, Repr

/-- Answer of the operating system to one call: the value returned and the
value of `errno` once the call has returned. For `gethostbyname` a negative
`ret` stands for a `NULL` result and any other `ret` is the resolved address. -/
structure sys_reply where
  ret : Int
  errno : Int
  deriving DecidableEq, Repr

/-- The environment: how the OS answers a call given the calls issued so far,
and the C library functions `atoi`, `inet_aton` and `malloc`. `malloc` is
`none` when it returns `NULL`, otherwise the indeterminate content of the
fresh block's `send_to_net`. -/
structure os_env where
  reply : List syscall → syscall → sys_reply
  atoi : List Char → Int
  inet_aton : List Char → Option Nat
  malloc : Option Int

/-- Observable state of the process: `errno`, the calls issued so far (oldest
first), the descriptors currently open, and the lines written by `log_err`. -/
structure os_state where
  errno : Int
  calls : List syscall
  open_fds : List Int
  log : List String
  deriving DecidableEq, Repr

/-- Descriptors open after call `c` returned `r`: `socket` and `accept` open
the descriptor they return, `close` releases its argument. -/
def fds_after (fds : List Int) (c : syscall) (r : Int) : List Int :=
  match c with
  | .socket => if 0 ≤ r then r :: fds else fds
  | .accept _ => if 0 ≤ r then r :: fds else fds
  | .close fd => if r = 0 then fds.erase fd else fds
  | _ => fds

/-- Issue one call: ask the environment, record the call, update `errno` and
the open descriptors. -/
def do_syscall (env : os_env) (w : os_state) (c : syscall) : Int × os_state :=
  let r := env.reply w.calls c
  (r.ret, { w with errno := r.errno, calls := w.calls ++ [c],
                   open_fds := fds_after w.open_fds c r.ret })

/-- Modelled from the spec: the `td_verror` macro of `fio.h` (not under
`src/`), the error sink of the job: it records the error code on the job. -/
def td_verror (td : thread_data) (err : Int) : thread_data :=
  { td with error := err }

/-- Modelled from the spec: the `td_vmsg` macro of `fio.h` (not under `src/`),
the error sink for setup diagnostics: message plus OS error code. -/
def td_vmsg (td : thread_data) (err : Int) (msg : String) : thread_data :=
  { td with error := err, verror := msg }

/-- Modelled from the spec: `log_err` of the harness (not under `src/`)
writes one diagnostic line. -/
def log_err (w : os_state) (msg : String) : os_state :=
  { w with log := w.log ++ [msg] }

/-! ## Completion reporter -/

/-- `fio_netio_event`: the stored completed-operation reference; `event` other
than `0` fails the assertion. -/
def fio_netio_event (td : thread_data) (event : Int) : Option (Option Nat) :=
  match td.data with
  | none => none
  | some nd => if event = 0 then some nd.last_io_u else none

/-! ## Validation -/

/-- Positional check of `fio_netio_prep` (the code after the direction
check): sync-shaped operations pass, others need the offset to equal the
file's `last_completed_pos`. -/
def netio_prep_pos (td : thread_data) (u : io_u) : Option (Int × thread_data) :=
  if u.ddir = DDIR_SYNC then
    some (0, td)
  else
    match td.files[u.file]? with
    | none => none
    | some f =>
      if u.offset = f.last_completed_pos then some (0, td)
      else some (1, td_verror td EINVAL)

/-- `fio_netio_prep`: direction check, then positional check. The result is
the return value and the job with the error recorded by `td_verror`. -/
def fio_netio_prep (td : thread_data) (u : io_u) : Option (Int × thread_data) :=
  match td.data with
  | none => none
  | some nd =>
    if nd.send_to_net ≠ 0 then
      if u.ddir = DDIR_READ then some (1, td_verror td EINVAL)
      else netio_prep_pos td u
    else
      if u.ddir = DDIR_WRITE then some (1, td_verror td EINVAL)
      else netio_prep_pos td u

/-! ## Synchronous executor -/

/-- The blocking transfer of `fio_netio_queue`: the value of the
`unsigned int ret` after the `write`/`read` (or its initial `0` for a
sync-shaped operation) and the process state. -/
def netio_transfer (env : os_env) (td : thread_data) (w : os_state) (u : io_u) :
    Option (Nat × os_state) :=
  if u.ddir = DDIR_WRITE then
    match td.files[u.file]? with
    | none => none
    | some f =>
      let r := do_syscall env w (.write f.fd u.buflen)
      some (to_uint r.1, r.2)
  else if u.ddir = DDIR_READ then
    match td.files[u.file]? with
    | none => none
    | some f =>
      let r := do_syscall env w (.read f.fd u.buflen)
      some (to_uint r.1, r.2)
  else
    some (0, w)

/-- Outcome classification of `fio_netio_queue` on the operation. -/
def netio_classify (ret : Nat) (errno : Int) (u : io_u) : io_u :=
  if ret ≠ u.buflen then
    if ret > 0 then
      { u with resid := (u.buflen + UINT_SZ - ret) % UINT_SZ, error := EIO }
    else
      { u with error := errno }
  else u

/-- `fio_netio_queue` on the operation at address `p` with content `u`: the
return value, the job (engine state updated), the operation and the process
state. -/
def fio_netio_queue (env : os_env) (td : thread_data) (w : os_state) (p : Nat) (u : io_u) :
    Option (Int × thread_data × io_u × os_state) :=
  match td.data with
  | none => none
  | some nd =>
    match netio_transfer env td w u with
    | none => none
    | some (ret, w1) =>
      let u1 := netio_classify ret w1.errno u
      let nd1 := if u1.error = 0 then { nd with last_io_u := some p } else nd
      some (u1.error, { td with data := some nd1 }, u1, w1)

/-! ## Setup and cleanup -/

/-- `strcpy` into a destination array of `cap` bytes: defined only when the
string and its terminating NUL fit. -/
def strcpy (cap : Nat) (src : List Char) : Option (List Char) :=
  if src.length < cap then some src else none

/-- `strchr`: offset of the first occurrence of `c`, `none` for `NULL`. -/
def strchr : List Char → Char → Option Nat
  | [], _ => none
  | x :: xs, c => if x = c then some 0 else (strchr xs c).map (· + 1)

/-- Port number stored by `htons(atoi(port))`: the `int` becomes a 16-bit
unsigned value. -/
def sin_port (env : os_env) (port : List Char) : Nat :=
  (env.atoi port % 65536).toNat

/-- `fio_netio_init`: allocate the engine state unless it exists. The fresh
block has `last_io_u = NULL`; `send_to_net` is not initialised. -/
def fio_netio_init (env : os_env) (td : thread_data) : Option (Int × thread_data) :=
  match td.data with
  | some _ => some (0, td)
  | none =>
    match env.malloc with
    | none => none
    | some junk => some (0, { td with data := some { send_to_net := junk, last_io_u := none } })

/-- `fio_netio_setup_connect`: resolve the host, create a socket, store it in
`files[0].fd`, connect. -/
def fio_netio_setup_connect (env : os_env) (td : thread_data) (w : os_state)
    (host port : List Char) : Option (Int × thread_data × os_state) :=
  let resolved : Option Nat × os_state :=
    match env.inet_aton host with
    | some a => (some a, w)
    | none =>
      let r := do_syscall env w (.gethostbyname host)
      if r.1 < 0 then (none, r.2) else (some (to_uint r.1), r.2)
  match resolved with
  | (none, w1) => some (1, td_vmsg td w1.errno "gethostbyname", w1)
  | (some addr, w1) =>
    match td.files with
    | [] => none
    | f :: fs =>
      let s := do_syscall env w1 .socket
      let td1 := { td with files := { f with fd := s.1 } :: fs }
      if s.1 < 0 then some (1, td_vmsg td1 s.2.errno "socket", s.2)
      else
        let c := do_syscall env s.2 (.connect s.1 addr (sin_port env port))
        if c.1 < 0 then some (1, td_vmsg td1 c.2.errno "connect", c.2)
        else some (0, td1, c.2)

/-- `fio_netio_setup_listen`: create a socket, set address reuse, bind to the
port on all interfaces, listen, accept one connection into `files[0].fd`. -/
def fio_netio_setup_listen (env : os_env) (td : thread_data) (w : os_state)
    (port : List Char) : Option (Int × thread_data × os_state) :=
  let s := do_syscall env w .socket
  if s.1 < 0 then some (1, td_vmsg td s.2.errno "socket", s.2)
  else
    let o := do_syscall env s.2 (.setsockopt s.1)
    if o.1 < 0 then some (1, td_vmsg td o.2.errno "setsockopt", o.2)
    else
      let b := do_syscall env o.2 (.bind s.1 (sin_port env port))
      if b.1 < 0 then some (1, td_vmsg td b.2.errno "bind", b.2)
      else
        let l := do_syscall env b.2 (.listen s.1 1)
        if l.1 < 0 then some (1, td_vmsg td l.2.errno "listen", l.2)
        else
          let a := do_syscall env l.2 (.accept s.1)
          match td.files with
          | [] => none
          | f :: fs =>
            let td1 := { td with files := { f with fd := a.1 } :: fs }
            if a.1 < 0 then some (1, td_vmsg td1 a.2.errno "accept", a.2)
            else some (0, td1, a.2)

/-- Tail of `fio_netio_setup`: on success of the role-specific setup the
job's I/O size becomes the configured total size. -/
def netio_setup_finish (r : Option (Int × thread_data × os_state)) :
    Option (Int × thread_data × os_state) :=
  match r with
  | none => none
  | some (ret, td, w) =>
    if ret = 0 then
      match td.files with
      | [] => none
      | f :: fs =>
        some (ret, { td with io_size := td.total_file_size,
                             total_io_size := td.total_file_size,
                             files := { f with real_file_size := td.total_file_size } :: fs }, w)
    else some (ret, td, w)

/-- `fio_netio_setup`. -/
def fio_netio_setup (env : os_env) (td : thread_data) (w : os_state) :
    Option (Int × thread_data × os_state) :=
  match fio_netio_init env td with
  | none => none
  | some (r0, td0) =>
    if r0 ≠ 0 then some (1, td0, w)
    else if td0.iomix ≠ 0 then
      some (1, td0, log_err w "fio: network connections must be read OR write\n")
    else if td0.nr_files > 1 then
      some (1, td0, log_err w "fio: only one file supported for network\n")
    else
      match strcpy 128 td0.filename with
      | none => none
      | some buf =>
        match strchr buf ':' with
        | none =>
          some (1, td0, log_err w
            ("fio: bad network host:port <<" ++ String.mk td0.filename ++ ">>\n"))
        | some i =>
          match strcpy 64 (buf.take i), strcpy 64 (buf.drop (i + 1)), td0.data with
          | some host, some port, some nd =>
            if td0.ddir = DDIR_READ then
              netio_setup_finish
                (fio_netio_setup_listen env
                  { td0 with data := some { nd with send_to_net := 0 } } w port)
            else
              netio_setup_finish
                (fio_netio_setup_connect env
                  { td0 with data := some { nd with send_to_net := 1 } } w host port)
          | _, _, _ => none

/-- `fio_netio_cleanup`: free the engine state if there is one. Nothing else
of the job or of the process changes. -/
def fio_netio_cleanup (td : thread_data) (w : os_state) : thread_data × os_state :=
  match td.data with
  | some _ => ({ td with data := none }, w)
  | none => (td, w)

/-! ## Vocabulary of the statements -/

/-- The blocking call `fio_netio_queue` issues for a read- or write-shaped
operation `u` on file `f`. -/
def netio_call (u : io_u) (f : fio_file) : syscall :=
  if u.ddir = DDIR_WRITE then .write f.fd u.buflen else .read f.fd u.buflen

/-- The direction of `u` conforms to the role of the job: a send-role job
takes no read-shaped operation, a receive-role job no write-shaped one. -/
def direction_conforms (nd : net_data) (u : io_u) : Prop :=
  if nd.send_to_net ≠ 0 then u.ddir ≠ DDIR_READ else u.ddir ≠ DDIR_WRITE

instance (nd : net_data) (u : io_u) : Decidable (direction_conforms nd u) := by
  unfold direction_conforms; infer_instance

/-! ## Concrete jobs, operations and environments -/

/-- A job in the send role with one file on descriptor 3 and nothing completed. -/
def td_send : thread_data where
  data := some { send_to_net := 1, last_io_u := none }
  files := [{ fd := 3, last_completed_pos := 0, real_file_size := 0 }]
  nr_files := 1
  filename := "127.0.0.1:9000".toList
  ddir := DDIR_WRITE
  iomix := 0
  io_size := 0
  total_file_size := 4096
  total_io_size := 0
  error := 0
  verror := ""

/-- A fresh process: `errno` clear, no call issued, no descriptor open. -/
def w_fresh : os_state where
  errno := 0
  calls := []
  open_fds := []
  log := []

/-- A write-shaped operation of 4096 bytes at offset 0 with clear outcome fields. -/
def u_write : io_u where
  buflen := 4096
  offset := 0
  resid := 0
  error := 0
  ddir := DDIR_WRITE
  file := 0

/-- An environment whose `write` and `read` return `n` and leave `e` in `errno`. -/
def env_rw (n e : Int) : os_env where
  reply := fun _ _ => { ret := n, errno := e }
  atoi := fun _ => 0
  inet_aton := fun _ => none
  malloc := some 0

/-- A write-shaped operation of 4096 bytes whose error field still holds 22. -/
def u_write_stale : io_u where
  buflen := 4096
  offset := 0
  resid := 0
  error := 22
  ddir := DDIR_WRITE
  file := 0

/-- A sync-shaped operation with a buffer length of 4096 and clear outcome fields. -/
def u_sync_len : io_u where
  buflen := 4096
  offset := 0
  resid := 0
  error := 0
  ddir := DDIR_SYNC
  file := 0

/-- A sync-shaped operation of length 0 whose error field still holds 22. -/
def u_sync_stale : io_u where
  buflen := 0
  offset := 0
  resid := 0
  error := 22
  ddir := DDIR_SYNC
  file := 0

/-- A sync-shaped operation of length 0 with clear outcome fields. -/
def u_sync : io_u where
  buflen := 0
  offset := 0
  resid := 0
  error := 0
  ddir := DDIR_SYNC
  file := 0

/-- A process in which an earlier call left `EPIPE` (32) in `errno`. -/
def w_epipe : os_state where
  errno := 32
  calls := []
  open_fds := [3]
  log := []

/-- Modelled from the spec: the harness, after an operation completed in
full, advances the `last_completed_pos` of the operation's file by the
operation's length (an `unsigned long long`). The harness is not under `src/`. -/
def harness_complete (td : thread_data) (u : io_u) : thread_data :=
  match td.files[u.file]? with
  | none => td
  | some f =>
    let f1 : fio_file :=
      { f with last_completed_pos := (f.last_completed_pos + u.buflen) % ULL_SZ }
    { td with files := td.files.set u.file f1 }

/-- Modelled from the spec: the harness submits the operations one after the
other to `fio_netio_prep`; an accepted operation completes in full
(`harness_complete`), the first rejected one ends the run. The result is the
list of values `fio_netio_prep` returned and the job at the end. The harness
is not under `src/`. -/
def harness_submit : thread_data → List io_u → Option (List Int × thread_data)
  | td, [] => some ([], td)
  | td, u :: us =>
    match fio_netio_prep td u with
    | none => none
    | some (r, td1) =>
      if r = 0 then
        match harness_submit (harness_complete td1 u) us with
        | none => none
        | some (rs, td2) => some (r :: rs, td2)
      else some ([r], td1)

/-- The operations of the list have contiguous offsets starting at `pos`: each
offset is the position reached by the lengths before it. -/
def contiguous_from (pos : Nat) : List io_u → Prop
  | [] => True
  | u :: us => u.offset = pos ∧ contiguous_from ((pos + u.buflen) % ULL_SZ) us

/-- Position reached from `pos` once the operations of the list completed. -/
def position_after (pos : Nat) : List io_u → Nat
  | [] => pos
  | u :: us => position_after ((pos + u.buflen) % ULL_SZ) us

/-- A read- or write-shaped operation on file `k` whose direction conforms to
the role of the job. -/
def stream_op (nd : net_data) (k : Nat) (u : io_u) : Prop :=
  u.file = k ∧ u.ddir ≠ DDIR_SYNC ∧ direction_conforms nd u

/-- A read-shaped operation of 4096 bytes at offset 0. -/
def u_read : io_u where
  buflen := 4096
  offset := 0
  resid := 0
  error := 0
  ddir := DDIR_READ
  file := 0

/-- A job in the receive role with one file on descriptor 4. -/
def td_recv : thread_data where
  data := some { send_to_net := 0, last_io_u := some 9 }
  files := [{ fd := 4, last_completed_pos := 0, real_file_size := 0 }]
  nr_files := 1
  filename := "0.0.0.0:9000".toList
  ddir := DDIR_READ
  iomix := 0
  io_size := 0
  total_file_size := 4096
  total_io_size := 0
  error := 0
  verror := ""

instance (nd : net_data) (k : Nat) (u : io_u) : Decidable (stream_op nd k u) := by
  unfold stream_op; infer_instance

/-- A write-shaped operation of `len` bytes at offset `off` on file 0. -/
def u_write_at (off len : Nat) : io_u where
  buflen := len
  offset := off
  resid := 0
  error := 0
  ddir := DDIR_WRITE
  file := 0

/-- The calls of a complete `fio_netio_setup_listen` on socket `s` and port `p`. -/
def listen_calls (s : Int) (p : Nat) : List syscall :=
  [.socket, .setsockopt s, .bind s p, .listen s 1, .accept s]

/-- Digits of `atoi`: accumulate decimal digits until the first other byte. -/
def atoi_digits : Int → List Char → Int
  | acc, [] => acc
  | acc, c :: cs =>
    if c.isDigit then atoi_digits (acc * 10 + ((c.toNat : Int) - 48)) cs else acc

/-- The C library `atoi` on strings whose value fits an `int`: leading white
space, an optional sign, then decimal digits; 0 when no digit follows. -/
def atoi_dec (s : List Char) : Int :=
  match s.dropWhile Char.isWhitespace with
  | '-' :: cs => - atoi_digits 0 cs
  | '+' :: cs => atoi_digits 0 cs
  | cs => atoi_digits 0 cs

/-- An environment in which every call succeeds: `socket` returns 3, `accept`
returns 4, every other call 0; `atoi` is `atoi_dec`. -/
def env_ok : os_env where
  reply := fun _ c =>
    match c with
    | .socket => { ret := 3, errno := 0 }
    | .accept _ => { ret := 4, errno := 0 }
    | _ => { ret := 0, errno := 0 }
  atoi := atoi_dec
  inet_aton := fun _ => none
  malloc := some 0

/-- A job about to be set up in the receive role on target `name`: no engine
state yet, one file without descriptor. -/
def td_unset (name : String) : thread_data where
  data := none
  files := [{ fd := -1, last_completed_pos := 0, real_file_size := 0 }]
  nr_files := 1
  filename := name.toList
  ddir := DDIR_READ
  iomix := 0
  io_size := 0
  total_file_size := 4096
  total_io_size := 0
  error := 0
  verror := ""

/-- A job whose target is 128 bytes long and has no separator. -/
def td_long : thread_data :=
  { td_unset "" with filename := List.replicate 128 'x' }

/-- A job about to listen whose target is `:` followed by 64 digits. -/
def td_long_port : thread_data :=
  { td_unset "" with filename := ':' :: List.replicate 64 '9' }

/-! ## Auxiliary facts -/

theorem to_uint_natCast (n : Nat) (h : n < UINT_SZ) : to_uint (n : Int) = n := by
  unfold to_uint UINT_SZ at *
  omega

theorem data_eta (td : thread_data) (nd : net_data) (h : td.data = some nd) :
    { td with data := some nd } = td := by
  cases td
  simp_all

theorem netio_transfer_rw (env : os_env) (td : thread_data) (w : os_state) (u : io_u)
    (f : fio_file) (hd : u.ddir ≠ DDIR_SYNC) (hf : td.files[u.file]? = some f) :
    netio_transfer env td w u =
      some (to_uint (env.reply w.calls (netio_call u f)).ret,
            (do_syscall env w (netio_call u f)).2) := by
  unfold netio_transfer netio_call
  cases hu : u.ddir <;> simp_all [do_syscall]

theorem netio_transfer_sync (env : os_env) (td : thread_data) (w : os_state) (u : io_u)
    (hd : u.ddir = DDIR_SYNC) : netio_transfer env td w u = some (0, w) := by
  unfold netio_transfer
  simp [hd]

theorem netio_transfer_isSome (env : os_env) (td : thread_data) (w : os_state) (u : io_u)
    (hf : u.ddir = DDIR_SYNC ∨ u.file < td.files.length) :
    ∃ r, netio_transfer env td w u = some r := by
  by_cases hd : u.ddir = DDIR_SYNC
  · exact ⟨_, netio_transfer_sync env td w u hd⟩
  · have hlt : u.file < td.files.length := by
      rcases hf with h | h
      · exact absurd h hd
      · exact h
    have hget : td.files[u.file]? = some td.files[u.file] := List.getElem?_eq_getElem hlt
    exact ⟨_, netio_transfer_rw env td w u _ hd hget⟩

/-! ## Properties of the synchronous executor -/

/-- C2: a read- or write-shaped operation of length `L` whose blocking call
moves `n` bytes with `0 < n < L` gets `resid = L - n` and `error = EIO`;
`fio_netio_queue` returns the non-zero `EIO`, and the job, hence its
last-completed reference, is left as it was. -/
theorem queue_short_transfer (env : os_env) (td : thread_data) (w : os_state) (p : Nat)
    (u : io_u) (nd : net_data) (f : fio_file) (n : Nat)
    (hnd : td.data = some nd) (hf : td.files[u.file]? = some f)
    (hd : u.ddir ≠ DDIR_SYNC) (hL : u.buflen < UINT_SZ)
    (hret : (env.reply w.calls (netio_call u f)).ret = (n : Int))
    (hpos : 0 < n) (hlt : n < u.buflen) :
    fio_netio_queue env td w p u =
        some ( EIO, td, { u with resid := u.buflen - n, error := EIO },
              (do_syscall env w (netio_call u f)).2)
      ∧ EIO ≠ 0 := by
  have hn : n < UINT_SZ := lt_trans hlt hL
  have hres : (u.buflen + UINT_SZ - n) % UINT_SZ = u.buflen - n := by
    have h1 : u.buflen + UINT_SZ - n = (u.buflen - n) + UINT_SZ := by omega
    rw [h1, Nat.add_mod_right, Nat.mod_eq_of_lt (by omega)]
  refine ⟨?_, by decide⟩
  unfold fio_netio_queue
  rw [hnd, netio_transfer_rw env td w u f hd hf, hret, to_uint_natCast n hn]
  have hne : n ≠ u.buflen := by omega
  simp only [netio_classify, hne, hpos, hres, ne_eq, not_false_eq_true, if_true, gt_iff_lt]
  have : ( EIO : Int) ≠ 0 := by decide
  simp [this, data_eta td nd hnd]

/-- Witness of C2: 1024 of 4096 bytes written leaves `resid = 3072`. -/
theorem queue_short_transfer_witness :
    fio_netio_queue (env_rw 1024 104) td_send w_fresh 7 u_write =
        some ( EIO, td_send, { u_write with resid := 3072, error := EIO },
              (do_syscall (env_rw 1024 104) w_fresh (netio_call u_write
                { fd := 3, last_completed_pos := 0, real_file_size := 0 })).2)
      ∧ EIO ≠ 0 :=
  queue_short_transfer (env_rw 1024 104) td_send w_fresh 7 u_write
    { send_to_net := 1, last_io_u := none }
    { fd := 3, last_completed_pos := 0, real_file_size := 0 } 1024
    rfl rfl (by decide) (by decide) rfl (by decide) (by decide)

/-- C1, as the code has it: a read- or write-shaped operation whose error
field is clear on entry and whose blocking call moves exactly the requested
length makes `fio_netio_queue` return 0 with the operation untouched; the
operation becomes the last-completed one and `fio_netio_event` at index 0
returns it. -/
theorem queue_full_transfer (env : os_env) (td : thread_data) (w : os_state) (p : Nat)
    (u : io_u) (nd : net_data) (f : fio_file)
    (hnd : td.data = some nd) (hf : td.files[u.file]? = some f)
    (hd : u.ddir ≠ DDIR_SYNC) (hL : u.buflen < UINT_SZ) (herr : u.error = 0)
    (hret : (env.reply w.calls (netio_call u f)).ret = (u.buflen : Int)) :
    fio_netio_queue env td w p u =
        some (0, { td with data := some { nd with last_io_u := some p } }, u,
              (do_syscall env w (netio_call u f)).2)
      ∧ fio_netio_event { td with data := some { nd with last_io_u := some p } } 0
          = some (some p) := by
  constructor
  · unfold fio_netio_queue
    rw [hnd, netio_transfer_rw env td w u f hd hf, hret, to_uint_natCast u.buflen hL]
    simp [netio_classify, herr]
  · simp [fio_netio_event]

/-- Witness of C1: 4096 of 4096 bytes written. -/
theorem queue_full_transfer_witness :
    fio_netio_queue (env_rw 4096 0) td_send w_fresh 7 u_write =
        some (0, { td_send with data := some { send_to_net := 1, last_io_u := some 7 } },
              u_write,
              (do_syscall (env_rw 4096 0) w_fresh (netio_call u_write
                { fd := 3, last_completed_pos := 0, real_file_size := 0 })).2)
      ∧ fio_netio_event
          { td_send with data := some { send_to_net := 1, last_io_u := some 7 } } 0
          = some (some 7) :=
  queue_full_transfer (env_rw 4096 0) td_send w_fresh 7 u_write
    { send_to_net := 1, last_io_u := none }
    { fd := 3, last_completed_pos := 0, real_file_size := 0 }
    rfl rfl (by decide) (by decide) rfl rfl

/-- C1 fails as stated: a write-shaped operation of 4096 bytes whose error
field holds 22 on entry and whose `write` moves all 4096 bytes makes
`fio_netio_queue` return 22, and no operation is recorded as completed. -/
theorem queue_full_transfer_stale_error :
    u_write_stale.ddir = DDIR_WRITE
      ∧ ((env_rw 4096 0).reply w_fresh.calls (netio_call u_write_stale
            { fd := 3, last_completed_pos := 0, real_file_size := 0 })).ret
          = (u_write_stale.buflen : Int)
      ∧ fio_netio_queue (env_rw 4096 0) td_send w_fresh 7 u_write_stale =
          some (22, td_send, u_write_stale,
                { errno := 0, calls := [.write 3 4096], open_fds := [], log := [] })
      ∧ fio_netio_event td_send 0 = some none := by
  refine ⟨rfl, rfl, rfl, rfl⟩

/-- C3 at a failing input: a write-shaped operation of 4096 bytes whose
`write` returns -1 with `errno = 32`. The `unsigned int ret` holds
4294967295, so the short-transfer branch runs: `resid` becomes 4097 and the
error recorded is `EIO` (5), not `errno`. -/
theorem queue_negative_result_takes_short_branch :
    fio_netio_queue (env_rw (-1) 32) td_send w_fresh 7 u_write =
      some (5, td_send, { u_write with resid := 4097, error := 5 },
            { errno := 32, calls := [.write 3 4096], open_fds := [], log := [] }) := by
  rfl

/-- The `-1` case in general: for a read- or write-shaped operation of length
below `2 ^ 32 - 1` whose blocking call returns -1, the short-transfer branch
runs: `resid` becomes the length plus one and the error is `EIO`. -/
theorem queue_negative_result (env : os_env) (td : thread_data) (w : os_state) (p : Nat)
    (u : io_u) (nd : net_data) (f : fio_file)
    (hnd : td.data = some nd) (hf : td.files[u.file]? = some f)
    (hd : u.ddir ≠ DDIR_SYNC) (hL : u.buflen + 1 < UINT_SZ)
    (hret : (env.reply w.calls (netio_call u f)).ret = -1) :
    fio_netio_queue env td w p u =
      some ( EIO, td, { u with resid := u.buflen + 1, error := EIO },
            (do_syscall env w (netio_call u f)).2) := by
  have hres : (u.buflen + UINT_SZ - 4294967295) % UINT_SZ = u.buflen + 1 := by
    unfold UINT_SZ at *
    omega
  have hne : (4294967295 : Nat) ≠ u.buflen := by
    unfold UINT_SZ at hL
    omega
  have hu : to_uint (-1) = 4294967295 := by decide
  unfold fio_netio_queue
  rw [hnd, netio_transfer_rw env td w u f hd hf, hret, hu]
  simp only [netio_classify, hne, hres, ne_eq, not_false_eq_true, if_true, gt_iff_lt,
    Nat.ofNat_pos]
  have : ( EIO : Int) ≠ 0 := by decide
  simp [this, data_eta td nd hnd]

/-- The `0` case in general: for a read- or write-shaped operation of non-zero
length whose blocking call returns 0, the error recorded is `errno` after the
call and `resid` is untouched; the operation is recorded as completed exactly
when that `errno` is 0. -/
theorem queue_zero_result (env : os_env) (td : thread_data) (w : os_state) (p : Nat)
    (u : io_u) (nd : net_data) (f : fio_file)
    (hnd : td.data = some nd) (hf : td.files[u.file]? = some f)
    (hd : u.ddir ≠ DDIR_SYNC) (hL : u.buflen ≠ 0)
    (hret : (env.reply w.calls (netio_call u f)).ret = 0) :
    fio_netio_queue env td w p u =
      some ((env.reply w.calls (netio_call u f)).errno,
            { td with data :=
                if (env.reply w.calls (netio_call u f)).errno = 0
                  then some { nd with last_io_u := some p } else some nd },
            { u with error := (env.reply w.calls (netio_call u f)).errno },
            (do_syscall env w (netio_call u f)).2) := by
  have hu : to_uint 0 = 0 := by decide
  have hne : (0 : Nat) ≠ u.buflen := fun h => hL h.symm
  unfold fio_netio_queue
  rw [hnd, netio_transfer_rw env td w u f hd hf, hret, hu]
  simp only [netio_classify, hne, do_syscall, ne_eq, not_false_eq_true, if_true,
    gt_iff_lt, lt_self_iff_false, if_false]
  split <;> rfl

/-- C7, as the code has it: a sync-shaped operation issues no call at all (the
process state, `errno` and the call trace included, is returned as it was),
and the value returned is the error field after the call; when its buffer
length is 0 and its error field is clear on entry, `fio_netio_queue` returns 0,
leaves the operation untouched and records it as completed, whatever `errno`
holds. -/
theorem queue_sync (env : os_env) (td : thread_data) (w : os_state) (p : Nat)
    (u : io_u) (nd : net_data)
    (hnd : td.data = some nd) (hd : u.ddir = DDIR_SYNC) :
    (∃ r td1 u1, fio_netio_queue env td w p u = some (r, td1, u1, w) ∧ r = u1.error)
      ∧ (u.buflen = 0 → u.error = 0 →
          fio_netio_queue env td w p u =
            some (0, { td with data := some { nd with last_io_u := some p } }, u, w)) := by
  constructor
  · unfold fio_netio_queue
    rw [hnd, netio_transfer_sync env td w u hd]
    exact ⟨_, _, _, rfl, rfl⟩
  · intro hb he
    unfold fio_netio_queue
    rw [hnd, netio_transfer_sync env td w u hd]
    simp [netio_classify, hb, he]

/-- Witness of C7: a sync-shaped operation of length 0 with `errno = 32`. -/
theorem queue_sync_witness :
    fio_netio_queue (env_rw 0 0) td_send w_epipe 7 u_sync =
      some (0, { td_send with data := some { send_to_net := 1, last_io_u := some 7 } },
            u_sync, w_epipe) :=
  (queue_sync (env_rw 0 0) td_send w_epipe 7 u_sync
    { send_to_net := 1, last_io_u := none } rfl rfl).2 rfl rfl

/-- C7 fails as stated: a sync-shaped operation with buffer length 4096 gets
the stale `errno` 32 as its error and `fio_netio_queue` returns 32; a
sync-shaped operation of length 0 whose error field holds 22 on entry makes
it return 22. -/
theorem queue_sync_not_always_success :
    fio_netio_queue (env_rw 0 0) td_send w_epipe 7 u_sync_len =
        some (32, td_send, { u_sync_len with error := 32 }, w_epipe)
      ∧ fio_netio_queue (env_rw 0 0) td_send w_epipe 7 u_sync_stale =
        some (22, td_send, u_sync_stale, w_epipe) := by
  exact ⟨rfl, rfl⟩

/-- C10: whenever the engine state exists and the operation is sync-shaped or
its file pointer is valid, `fio_netio_queue` returns; the value returned is
the operation's error field after the call; the last-completed reference
afterwards is the operation if that value is 0 and the old reference
otherwise; `send_to_net` is unchanged. -/
theorem queue_returns_error_field (env : os_env) (td : thread_data) (w : os_state)
    (p : Nat) (u : io_u) (nd : net_data)
    (hnd : td.data = some nd) (hf : u.ddir = DDIR_SYNC ∨ u.file < td.files.length) :
    ∃ r td1 u1 w1 nd1, fio_netio_queue env td w p u = some (r, td1, u1, w1)
      ∧ td1.data = some nd1
      ∧ r = u1.error
      ∧ nd1.last_io_u = (if r = 0 then some p else nd.last_io_u)
      ∧ nd1.send_to_net = nd.send_to_net := by
  obtain ⟨⟨ret, w1⟩, ht⟩ := netio_transfer_isSome env td w u hf
  unfold fio_netio_queue
  rw [hnd, ht]
  by_cases he : (netio_classify ret w1.errno u).error = 0
  · exact ⟨_, _, _, _, _, rfl, rfl, rfl, by simp [he], by simp [he]⟩
  · exact ⟨_, _, _, _, _, rfl, rfl, rfl, by simp [he], by simp [he]⟩

/-- Witness of C10: a write of 4096 bytes that returns -1. -/
theorem queue_returns_error_field_witness :
    ∃ r td1 u1 w1 nd1,
      fio_netio_queue (env_rw (-1) 32) td_send w_fresh 7 u_write = some (r, td1, u1, w1)
      ∧ td1.data = some nd1
      ∧ r = u1.error
      ∧ nd1.last_io_u
          = (if r = 0 then some 7 else ({ send_to_net := 1, last_io_u := none } : net_data).last_io_u)
      ∧ nd1.send_to_net = ({ send_to_net := 1, last_io_u := none } : net_data).send_to_net :=
  queue_returns_error_field (env_rw (-1) 32) td_send w_fresh 7 u_write
    { send_to_net := 1, last_io_u := none } rfl (Or.inr (by decide))

/-! ## Properties of validation -/

theorem prep_conforming (td : thread_data) (u : io_u) (nd : net_data)
    (hnd : td.data = some nd) (hc : direction_conforms nd u) :
    fio_netio_prep td u = netio_prep_pos td u := by
  unfold fio_netio_prep
  unfold direction_conforms at hc
  rw [hnd]
  by_cases hs : nd.send_to_net = 0
  · simp [hs] at hc ⊢
    simp [hc]
  · simp [hs] at hc ⊢
    simp [hc]

theorem prep_stream_accept (td : thread_data) (u : io_u) (nd : net_data) (f : fio_file)
    (k : Nat) (hnd : td.data = some nd) (hf : td.files[k]? = some f)
    (hu : stream_op nd k u) (ho : u.offset = f.last_completed_pos) :
    fio_netio_prep td u = some (0, td) := by
  obtain ⟨hk, hd, hc⟩ := hu
  subst hk
  rw [prep_conforming td u nd hnd hc]
  simp [netio_prep_pos, hd, hf, ho]

theorem prep_stream_reject (td : thread_data) (u : io_u) (nd : net_data) (f : fio_file)
    (k : Nat) (hnd : td.data = some nd) (hf : td.files[k]? = some f)
    (hu : stream_op nd k u) (ho : u.offset ≠ f.last_completed_pos) :
    fio_netio_prep td u = some (1, td_verror td EINVAL) := by
  obtain ⟨hk, hd, hc⟩ := hu
  subst hk
  rw [prep_conforming td u nd hnd hc]
  simp [netio_prep_pos, hd, hf, ho]

theorem harness_complete_data (td : thread_data) (u : io_u) :
    (harness_complete td u).data = td.data := by
  unfold harness_complete
  cases td.files[u.file]? <;> rfl

theorem harness_complete_file (td : thread_data) (u : io_u) (f : fio_file)
    (hf : td.files[u.file]? = some f) :
    (harness_complete td u).files[u.file]? =
      some { f with last_completed_pos := (f.last_completed_pos + u.buflen) % ULL_SZ } := by
  have hlt : u.file < td.files.length := by
    by_contra hge
    rw [List.getElem?_eq_none (Nat.le_of_not_lt hge)] at hf
    cases hf
  unfold harness_complete
  rw [hf]
  simp [List.getElem?_set_self, hlt]

/-- Run of the harness over a contiguous prefix followed by an operation with
a non-matching offset: the prefix is accepted, that operation rejected. -/
theorem harness_submit_prefix (nd : net_data) (k : Nat) (pre : List io_u) :
    ∀ (td : thread_data) (f : fio_file) (bad : io_u) (rest : List io_u),
      td.data = some nd → td.files[k]? = some f →
      (∀ u ∈ pre, stream_op nd k u) → stream_op nd k bad →
      contiguous_from f.last_completed_pos pre →
      bad.offset ≠ position_after f.last_completed_pos pre →
      ∃ td1, harness_submit td (pre ++ bad :: rest)
                = some (List.replicate pre.length 0 ++ [1], td1)
              ∧ td1.error = EINVAL := by
  induction pre with
  | nil =>
    intro td f bad rest hnd hf _ hbad _ hoff
    refine ⟨td_verror td EINVAL, ?_, rfl⟩
    simp only [List.nil_append, harness_submit, List.length_nil, List.replicate_zero]
    rw [prep_stream_reject td bad nd f k hnd hf hbad hoff]
    simp
  | cons u us ih =>
    intro td f bad rest hnd hf hall hbad hcont hoff
    have hu : stream_op nd k u := hall u (List.mem_cons_self u us)
    have hk : u.file = k := hu.1
    obtain ⟨ho, hcont1⟩ := hcont
    have hf1 := harness_complete_file td u f (hk ▸ hf)
    rw [hk] at hf1
    obtain ⟨td1, hrun, herr⟩ := ih (harness_complete td u) _ bad rest
      ((harness_complete_data td u).trans hnd) hf1
      (fun v hv => hall v (List.mem_cons_of_mem u hv)) hbad hcont1 hoff
    refine ⟨td1, ?_, herr⟩
    simp only [List.cons_append, harness_submit, List.length_cons, List.replicate_succ]
    rw [prep_stream_accept td u nd f k hnd hf hu ho]
    simp [hrun]

/-- Run of the harness over operations with contiguous offsets: all accepted. -/
theorem harness_submit_contiguous (nd : net_data) (k : Nat) (ops : List io_u) :
    ∀ (td : thread_data) (f : fio_file),
      td.data = some nd → td.files[k]? = some f →
      (∀ u ∈ ops, stream_op nd k u) →
      contiguous_from f.last_completed_pos ops →
      ∃ td1, harness_submit td ops = some (List.replicate ops.length 0, td1) := by
  induction ops with
  | nil =>
    intro td f _ _ _ _
    exact ⟨td, rfl⟩
  | cons u us ih =>
    intro td f hnd hf hall hcont
    have hu : stream_op nd k u := hall u (List.mem_cons_self u us)
    have hk : u.file = k := hu.1
    obtain ⟨ho, hcont1⟩ := hcont
    have hf1 := harness_complete_file td u f (hk ▸ hf)
    rw [hk] at hf1
    obtain ⟨td1, hrun⟩ := ih (harness_complete td u) _
      ((harness_complete_data td u).trans hnd) hf1
      (fun v hv => hall v (List.mem_cons_of_mem u hv)) hcont1
    refine ⟨td1, ?_⟩
    simp only [harness_submit, List.length_cons, List.replicate_succ]
    rw [prep_stream_accept td u nd f k hnd hf hu ho]
    simp [hrun]

/-- C4: for a job with engine state `nd` and file `k`, `fio_netio_prep` on an
operation of that file whose direction conforms to the role returns, and
returns 0 exactly when the operation is sync-shaped or its offset equals the
file's `last_completed_pos`; a rejection records `EINVAL`. Consequently, when
the harness advances `last_completed_pos` by each completed length, a run of
read/write operations with contiguous offsets is accepted throughout, and
the first operation with a non-matching offset is rejected with `EINVAL`. -/
theorem prep_accepts_iff_sequential (td : thread_data) (nd : net_data) (k : Nat)
    (f : fio_file) (hnd : td.data = some nd) (hf : td.files[k]? = some f) :
    (∀ u : io_u, u.file = k → direction_conforms nd u →
        ∃ r td1, fio_netio_prep td u = some (r, td1)
          ∧ (r = 0 ↔ (u.ddir = DDIR_SYNC ∨ u.offset = f.last_completed_pos))
          ∧ (r ≠ 0 → td1.error = EINVAL))
      ∧ (∀ ops : List io_u, (∀ u ∈ ops, stream_op nd k u) →
          contiguous_from f.last_completed_pos ops →
          ∃ td1, harness_submit td ops = some (List.replicate ops.length 0, td1))
      ∧ (∀ (pre : List io_u) (bad : io_u) (rest : List io_u),
          (∀ u ∈ pre, stream_op nd k u) → stream_op nd k bad →
          contiguous_from f.last_completed_pos pre →
          bad.offset ≠ position_after f.last_completed_pos pre →
          ∃ td1, harness_submit td (pre ++ bad :: rest)
                    = some (List.replicate pre.length 0 ++ [1], td1)
                  ∧ td1.error = EINVAL) := by
  refine ⟨?_, ?_, ?_⟩
  · intro u hk hc
    subst hk
    rw [prep_conforming td u nd hnd hc]
    unfold netio_prep_pos
    by_cases hs : u.ddir = DDIR_SYNC
    · exact ⟨0, td, by simp [hs], by simp [hs], by simp⟩
    · by_cases ho : u.offset = f.last_completed_pos
      · exact ⟨0, td, by simp [hs, hf, ho], by simp [ho], by simp⟩
      · exact ⟨1, td_verror td EINVAL, by simp [hs, hf, ho], by simp [hs, ho],
          fun _ => rfl⟩
  · intro ops hall hcont
    exact harness_submit_contiguous nd k ops td f hnd hf hall hcont
  · intro pre bad rest hall hbad hcont hoff
    exact harness_submit_prefix nd k pre td f bad rest hnd hf hall hbad hcont hoff

/-- Witness of C4: on a send-role job at position 0, writes at offsets 0 and
4096 are accepted and a following write at offset 100 is rejected. -/
theorem prep_accepts_iff_sequential_witness :
    (∃ r td1, fio_netio_prep td_send (u_write_at 0 4096) = some (r, td1)
        ∧ (r = 0 ↔ ((u_write_at 0 4096).ddir = DDIR_SYNC
                      ∨ (u_write_at 0 4096).offset = 0))
        ∧ (r ≠ 0 → td1.error = EINVAL))
      ∧ (∃ td1, harness_submit td_send
                  ([u_write_at 0 4096, u_write_at 4096 4096] ++ u_write_at 100 4096 :: [])
                = some (List.replicate 2 0 ++ [1], td1)
              ∧ td1.error = EINVAL) :=
  have h := prep_accepts_iff_sequential td_send { send_to_net := 1, last_io_u := none } 0
    { fd := 3, last_completed_pos := 0, real_file_size := 0 } rfl rfl
  ⟨h.1 (u_write_at 0 4096) rfl (by decide),
   h.2.2 [u_write_at 0 4096, u_write_at 4096 4096] (u_write_at 100 4096) []
     (by decide) (by decide) ⟨rfl, rfl, trivial⟩ (by decide)⟩

/-- C5: on a send-role job a read-shaped operation, and on a receive-role job
a write-shaped operation, is rejected by `fio_netio_prep` whatever its offset
and file pointer: the value returned is 1, the job's error is `EINVAL`, and
the engine state (last-completed reference and direction flag) and every
other field of the job are unchanged. -/
theorem prep_rejects_wrong_direction (td : thread_data) (u : io_u) (nd : net_data)
    (hnd : td.data = some nd)
    (hdir : (nd.send_to_net ≠ 0 ∧ u.ddir = DDIR_READ)
              ∨ (nd.send_to_net = 0 ∧ u.ddir = DDIR_WRITE)) :
    fio_netio_prep td u = some (1, { td with error := EINVAL })
      ∧ ({ td with error := EINVAL } : thread_data).data = some nd := by
  refine ⟨?_, hnd⟩
  unfold fio_netio_prep
  rw [hnd]
  rcases hdir with ⟨h1, h2⟩ | ⟨h1, h2⟩
  · simp [h1, h2, td_verror, hnd]
  · simp [h1, h2, td_verror, hnd]

/-- Witness of C5: a read-shaped operation on a send-role job, and a
write-shaped operation on a receive-role job. -/
theorem prep_rejects_wrong_direction_witness :
    (fio_netio_prep td_send u_read = some (1, { td_send with error := EINVAL })
        ∧ ({ td_send with error := EINVAL } : thread_data).data
            = some { send_to_net := 1, last_io_u := none })
      ∧ (fio_netio_prep td_recv u_write = some (1, { td_recv with error := EINVAL })
        ∧ ({ td_recv with error := EINVAL } : thread_data).data
            = some { send_to_net := 0, last_io_u := some 9 }) :=
  ⟨prep_rejects_wrong_direction td_send u_read { send_to_net := 1, last_io_u := none }
      rfl (Or.inl ⟨by decide, rfl⟩),
   prep_rejects_wrong_direction td_recv u_write { send_to_net := 0, last_io_u := some 9 }
      rfl (Or.inr ⟨rfl, rfl⟩)⟩

/-! ## Properties of setup and cleanup -/

theorem init_spec (env : os_env) (td td0 : thread_data) (r : Int)
    (h : fio_netio_init env td = some (r, td0)) :
    r = 0 ∧ (∃ nd0, td0 = { td with data := some nd0 })
      ∧ (∀ nd, td.data = some nd → td0 = td) := by
  unfold fio_netio_init at h
  cases hd : td.data with
  | some nd =>
    simp only [hd, Option.some.injEq, Prod.mk.injEq] at h
    obtain ⟨h1, h2⟩ := h
    subst h1 h2
    refine ⟨rfl, ⟨nd, ?_⟩, fun _ _ => rfl⟩
    cases td
    simp_all
  | none =>
    simp only [hd] at h
    cases hm : env.malloc with
    | none => simp [hm] at h
    | some junk =>
      simp only [hm, Option.some.injEq, Prod.mk.injEq] at h
      obtain ⟨h1, h2⟩ := h
      subst h1 h2
      exact ⟨rfl, ⟨_, rfl⟩, fun nd hnd => by simp at hnd⟩

theorem strcpy_fits (cap : Nat) (s : List Char) (h : s.length < cap) :
    strcpy cap s = some s := by
  simp [strcpy, h]

theorem strchr_none (s : List Char) (c : Char) (h : c ∉ s) : strchr s c = none := by
  induction s with
  | nil => rfl
  | cons x xs ih =>
    have hx : x ≠ c := fun e => h (e ▸ List.mem_cons_self x xs)
    have hxs : c ∉ xs := fun m => h (List.mem_cons_of_mem x m)
    simp [strchr, hx, ih hxs]

theorem strchr_first (host port : List Char) (c : Char) (h : c ∉ host) :
    strchr (host ++ c :: port) c = some host.length := by
  induction host with
  | nil => simp [strchr]
  | cons x xs ih =>
    have hx : x ≠ c := fun e => h (e ▸ List.mem_cons_self x xs)
    have hxs : c ∉ xs := fun m => h (List.mem_cons_of_mem x m)
    simp [strchr, hx, ih hxs]

/-- Calls of `fio_netio_setup_listen`: an initial segment of `listen_calls`
on the socket obtained and the port `htons(atoi(port))`, all five of them
when it returns 0. -/
theorem setup_listen_calls (env : os_env) (td : thread_data) (w : os_state)
    (port : List Char) (r : Int) (td1 : thread_data) (w1 : os_state)
    (h : fio_netio_setup_listen env td w port = some (r, td1, w1)) :
    ∃ n, w1.calls = w.calls
            ++ (listen_calls (env.reply w.calls .socket).ret (sin_port env port)).take n
      ∧ (r = 0 → n = 5) := by
  unfold fio_netio_setup_listen at h
  simp only [do_syscall] at h
  split at h
  · simp only [Option.some.injEq, Prod.mk.injEq] at h
    obtain ⟨hr, -, hw⟩ := h
    subst hr hw
    exact ⟨1, by simp [listen_calls], by simp⟩
  · split at h
    · simp only [Option.some.injEq, Prod.mk.injEq] at h
      obtain ⟨hr, -, hw⟩ := h
      subst hr hw
      exact ⟨2, by simp [listen_calls], by simp⟩
    · split at h
      · simp only [Option.some.injEq, Prod.mk.injEq] at h
        obtain ⟨hr, -, hw⟩ := h
        subst hr hw
        exact ⟨3, by simp [listen_calls], by simp⟩
      · split at h
        · simp only [Option.some.injEq, Prod.mk.injEq] at h
          obtain ⟨hr, -, hw⟩ := h
          subst hr hw
          exact ⟨4, by simp [listen_calls], by simp⟩
        · split at h
          · simp at h
          · split at h
            · simp only [Option.some.injEq, Prod.mk.injEq] at h
              obtain ⟨hr, -, hw⟩ := h
              subst hr hw
              exact ⟨5, by simp [listen_calls], by simp⟩
            · simp only [Option.some.injEq, Prod.mk.injEq] at h
              obtain ⟨hr, -, hw⟩ := h
              subst hr hw
              exact ⟨5, by simp [listen_calls], by simp⟩

theorem setup_listen_isSome (env : os_env) (td : thread_data) (w : os_state)
    (port : List Char) (hfiles : td.files ≠ []) :
    ∃ r td1 w1, fio_netio_setup_listen env td w port = some (r, td1, w1)
      ∧ (r = 0 → td1.files ≠ []) := by
  unfold fio_netio_setup_listen
  cases hfs : td.files with
  | nil => exact absurd hfs hfiles
  | cons f fs =>
    simp only
    split
    · exact ⟨_, _, _, rfl, by simp⟩
    · split
      · exact ⟨_, _, _, rfl, by simp⟩
      · split
        · exact ⟨_, _, _, rfl, by simp⟩
        · split
          · exact ⟨_, _, _, rfl, by simp⟩
          · split
            · exact ⟨_, _, _, rfl, by simp⟩
            · exact ⟨_, _, _, rfl, by simp⟩

theorem setup_finish_some (r : Int) (td : thread_data) (w : os_state)
    (hfiles : r = 0 → td.files ≠ []) :
    ∃ td1, netio_setup_finish (some (r, td, w)) = some (r, td1, w) := by
  unfold netio_setup_finish
  by_cases hr : r = 0
  · cases hfs : td.files with
    | nil => exact absurd hfs (hfiles hr)
    | cons f fs => simp [hr, hfs]
  · simp [hr]

/-- Configuration errors of `fio_netio_setup` (the cases of C6 in which the
code returns): with mixed directions, more than one file, or a target
without separator that fits the 128-byte buffer, setup returns 1 with the job
as `fio_netio_init` left it and the process state changed by one log line
only, so no call is issued. -/
theorem setup_config_error (env : os_env) (td td0 : thread_data) (w : os_state)
    (hinit : fio_netio_init env td = some (0, td0))
    (hcfg : td.iomix ≠ 0 ∨ td.nr_files > 1
              ∨ (':' ∉ td.filename ∧ td.filename.length < 128)) :
    ∃ msg, fio_netio_setup env td w = some (1, td0, log_err w msg) := by
  obtain ⟨-, ⟨nd0, htd0⟩, -⟩ := init_spec env td td0 0 hinit
  unfold fio_netio_setup
  rw [hinit]
  subst htd0
  by_cases hmix : td.iomix = 0
  · by_cases hnr : td.nr_files > 1
    · exact ⟨"fio: only one file supported for network\n", by simp [hmix, hnr]⟩
    · rcases hcfg with h | h | ⟨hsep, hlen⟩
      · exact absurd hmix h
      · exact absurd h hnr
      · exact ⟨"fio: bad network host:port <<" ++ String.mk td.filename ++ ">>\n",
          by simp [hmix, hnr, strcpy_fits 128 _ hlen, strchr_none _ _ hsep]⟩
  · exact ⟨"fio: network connections must be read OR write\n", by simp [hmix]⟩

/-- C6 at a failing input: a job with one file, no mixed directions and a
target of 128 bytes without separator. `strcpy(buf, td->filename)` writes 129
bytes into the 128-byte `buf`, so `fio_netio_setup` has no defined outcome. -/
theorem setup_long_target_overflows :
    td_long.iomix = 0 ∧ td_long.nr_files = 1 ∧ ':' ∉ td_long.filename
      ∧ td_long.filename.length = 128
      ∧ fio_netio_setup env_ok td_long w_fresh = none := by
  refine ⟨rfl, rfl, ?_, ?_, ?_⟩
  · simp [td_long, td_unset]
  · simp [td_long, td_unset]
  · simp [fio_netio_setup, fio_netio_init, td_long, td_unset, strcpy, env_ok]

/-- C8, as the code has it: on a receive-role job whose target is
`host ++ ":" ++ port` with no `:` in `host` and both parts shorter than 64
bytes, `fio_netio_setup` is `fio_netio_setup_listen` on `port`, the suffix
after the FIRST `:`, followed by the size assignment; `host` is not used. With
a file present it returns, and the calls it issued are an initial segment of
socket, setsockopt, bind to `htons(atoi(port))`, listen, accept (all five
when it returns 0). -/
theorem setup_listen_uses_suffix_after_first_separator (env : os_env)
    (td td0 : thread_data) (w : os_state) (nd : net_data) (host port : List Char)
    (hinit : fio_netio_init env td = some (0, td0)) (hnd : td0.data = some nd)
    (hrole : td.ddir = DDIR_READ) (hmix : td.iomix = 0) (hnr : td.nr_files ≤ 1)
    (hfiles : td.files ≠ [])
    (hname : td.filename = host ++ ':' :: port) (hsep : ':' ∉ host)
    (hh : host.length < 64) (hp : port.length < 64) :
    fio_netio_setup env td w =
        netio_setup_finish
          (fio_netio_setup_listen env
            { td0 with data := some { nd with send_to_net := 0 } } w port)
      ∧ ∃ r td1 w1 n, fio_netio_setup env td w = some (r, td1, w1)
          ∧ w1.calls = w.calls
              ++ (listen_calls (env.reply w.calls .socket).ret (sin_port env port)).take n
          ∧ (r = 0 → n = 5) := by
  have heq : fio_netio_setup env td w =
      netio_setup_finish
        (fio_netio_setup_listen env
          { td0 with data := some { nd with send_to_net := 0 } } w port) := by
    obtain ⟨-, ⟨nd0, htd0⟩, -⟩ := init_spec env td td0 0 hinit
    unfold fio_netio_setup
    rw [hinit]
    subst htd0
    simp only [Option.some.injEq] at hnd
    subst hnd
    have hnr1 : ¬ td.nr_files > 1 := by omega
    have hlen : (host ++ ':' :: port).length < 128 := by
      simp only [List.length_append, List.length_cons]
      omega
    have hdrop : List.drop (host.length + 1) (host ++ ':' :: port) = port := by
      induction host with
      | nil => simp
      | cons x xs ih =>
        have hxs : ':' ∉ xs := fun m => hsep (List.mem_cons_of_mem x m)
        simp
    simp [hmix, hnr1, hname, hrole, strcpy_fits 128 _ hlen,
      strchr_first host port ':' hsep, hdrop, strcpy_fits 64 host hh,
      strcpy_fits 64 port hp]
  refine ⟨heq, ?_⟩
  have hf0 : td0.files ≠ [] := by
    obtain ⟨-, ⟨nd0, htd0⟩, -⟩ := init_spec env td td0 0 hinit
    subst htd0
    exact hfiles
  obtain ⟨r, td1, w1, hl, hnz⟩ := setup_listen_isSome env
    { td0 with data := some { nd with send_to_net := 0 } } w port hf0
  obtain ⟨n, hcalls, hn⟩ := setup_listen_calls env _ w port r td1 w1 hl
  obtain ⟨td2, hfin⟩ := setup_finish_some r td1 w1 hnz
  exact ⟨r, td2, w1, n, by rw [heq, hl, hfin], hcalls, hn⟩

/-- Witness of C8: target `a:b:9000` on a job about to listen. -/
theorem setup_listen_uses_suffix_after_first_separator_witness :
    fio_netio_setup env_ok (td_unset "a:b:9000") w_fresh =
        netio_setup_finish
          (fio_netio_setup_listen env_ok
            { td_unset "a:b:9000" with data := some { send_to_net := 0, last_io_u := none } }
            w_fresh "b:9000".toList)
      ∧ ∃ r td1 w1 n, fio_netio_setup env_ok (td_unset "a:b:9000") w_fresh = some (r, td1, w1)
          ∧ w1.calls = w_fresh.calls
              ++ (listen_calls (env_ok.reply w_fresh.calls .socket).ret
                    (sin_port env_ok "b:9000".toList)).take n
          ∧ (r = 0 → n = 5) :=
  setup_listen_uses_suffix_after_first_separator env_ok (td_unset "a:b:9000")
    { td_unset "a:b:9000" with data := some { send_to_net := 0, last_io_u := none } }
    w_fresh { send_to_net := 0, last_io_u := none } "a".toList "b:9000".toList
    rfl rfl rfl rfl (by decide) (by decide) rfl (by decide) (by decide) (by decide)

/-- C8 fails as stated: for the target `a:b:9000` receive-role setup succeeds
after binding port 0, the value of `atoi` on `b:9000`, the suffix after the
first `:`; the suffix after the last `:` is `9000`, whose port is 9000. And for
a target made of `:` and a 64-byte port, `strcpy(port, sep)` writes 65 bytes
into the 64-byte `port`, so setup has no defined outcome. -/
theorem setup_listen_port_not_after_last_separator :
    (fio_netio_setup env_ok (td_unset "a:b:9000") w_fresh).map
        (fun r => (r.1, r.2.2.calls))
        = some (0, [.socket, .setsockopt 3, .bind 3 0, .listen 3 1, .accept 3])
      ∧ sin_port env_ok "b:9000".toList = 0
      ∧ sin_port env_ok "9000".toList = 9000
      ∧ fio_netio_setup env_ok td_long_port w_fresh = none := by
  refine ⟨rfl, rfl, rfl, ?_⟩
  simp [fio_netio_setup, fio_netio_init, td_long_port, td_unset, strcpy, strchr, env_ok]

/-- C9, as the code has it: `fio_netio_cleanup` frees the engine state, so
that it is absent afterwards, and does nothing else: it issues no call (no
`close`), and the job's files with their descriptors, the descriptors open
in the process and the call trace are as before. A second cleanup changes
nothing. -/
theorem cleanup_frees_state_only (td : thread_data) (w : os_state) :
    (fio_netio_cleanup td w).1 = { td with data := none }
      ∧ (fio_netio_cleanup td w).2 = w
      ∧ fio_netio_cleanup (fio_netio_cleanup td w).1 (fio_netio_cleanup td w).2
          = fio_netio_cleanup td w := by
  unfold fio_netio_cleanup
  cases hd : td.data with
  | some nd => exact ⟨rfl, rfl, rfl⟩
  | none =>
    refine ⟨?_, rfl, ?_⟩
    · cases td
      simp_all
    · simp [hd]

/-- C9 fails as stated: after a successful receive-role setup on
`0.0.0.0:9000` (listening socket 3, accepted connection 4), cleanup leaves
the engine state absent, but `files[0].fd` is still 4, descriptors 4 and 3
are still open, and the calls issued are those of setup, with no `close`. -/
theorem cleanup_leaves_socket_open :
    (fio_netio_setup env_ok (td_unset "0.0.0.0:9000") w_fresh).map
        (fun r =>
          ((fio_netio_cleanup r.2.1 r.2.2).1.data,
           (fio_netio_cleanup r.2.1 r.2.2).1.files.map fio_file.fd,
           (fio_netio_cleanup r.2.1 r.2.2).2.open_fds,
           (fio_netio_cleanup r.2.1 r.2.2).2.calls))
      = some (none, [4], [4, 3],
              [.socket, .setsockopt 3, .bind 3 9000, .listen 3 1, .accept 3]) := by
  rfl

end Fio
